import Mathlib

/-!
Verification development for the Web3 Email Platform backend
(`src/backend/server.py`).

The embedding models Python strings as lists of Unicode code points
(`List Nat`), and the stateful parts of the server (Mongo collections,
the IPFS-backed encrypted object store, per-user credit balances,
payment sessions) as explicit state threaded through functions that are
translated from the source.  Python exceptions surface as `Except` /
`Option` results.
-/

namespace Web3Email

/-- A Python `str`, modelled as its sequence of Unicode code points. -/
abbrev Str := List Nat

/-- Code-point literal helper for embedding Python string constants. -/
def litStr (s : String) : Str := s.toList.map Char.toNat

/-- Python `str.strip()` whitespace test, on the ASCII whitespace range
(space, tab, LF, VT, FF, CR), the range relevant to the fields stripped
by the server. -/
def isPySpace (c : Nat) : Bool :=
  c == 32 || c == 9 || c == 10 || c == 11 || c == 12 || c == 13

/-- Python `str.lower()` on one code point (ASCII range; the server
lower-cases email addresses). -/
def lowerChar (c : Nat) : Nat := if 65 ≤ c ∧ c ≤ 90 then c + 32 else c

/-- Upper-casing of one code point (ASCII range), used to describe
case-variants of an address. -/
def upperChar (c : Nat) : Nat := if 97 ≤ c ∧ c ≤ 122 then c - 32 else c

/-- Python `str.lower()`. -/
def pyLower (s : Str) : Str := s.map lowerChar

/-- Removal of leading whitespace. -/
def trimLeft (s : Str) : Str := s.dropWhile isPySpace

/-- Removal of trailing whitespace. -/
def trimRight (s : Str) : Str := (s.reverse.dropWhile isPySpace).reverse

/-- Python `str.strip()`: removes leading and trailing whitespace. -/
def pyStrip (s : Str) : Str := trimLeft (trimRight s)

/-- All code points of a string are whitespace. -/
def AllSpace (s : Str) : Prop := ∀ c ∈ s, isPySpace c = true

instance (s : Str) : Decidable (AllSpace s) :=
  inferInstanceAs (Decidable (∀ c ∈ s, isPySpace c = true))

/-- Lexicographic comparison of code-point sequences, as Python's `<=`
on `str` used by `sorted`. -/
def lexLe : Str → Str → Bool
  | [], _ => true
  | _ :: _, [] => false
  | a :: as, b :: bs => if a < b then true else if b < a then false else lexLe as bs

/-- The order relation underlying Python `sorted` on strings. -/
def strLe (a b : Str) : Prop := lexLe a b = true

instance : DecidableRel strLe := fun a b => instDecidableEqBool (lexLe a b) true

theorem lexLe_refl (a : Str) : lexLe a a = true := by
  induction a with
  | nil => rfl
  | cons c cs ih => simp [lexLe, ih]

theorem lexLe_total (a b : Str) : lexLe a b = true ∨ lexLe b a = true := by
  induction a generalizing b with
  | nil => exact Or.inl rfl
  | cons c cs ih =>
    cases b with
    | nil => exact Or.inr rfl
    | cons d ds =>
      by_cases h1 : c < d
      · left; simp [lexLe, h1]
      · by_cases h2 : d < c
        · right; simp [lexLe, h2]
        · have hcd : c = d := Nat.le_antisymm (Nat.not_lt.mp h2) (Nat.not_lt.mp h1)
          subst hcd
          rcases ih ds with h | h
          · left; simp [lexLe, h]
          · right; simp [lexLe, h]

theorem lexLe_antisymm : ∀ {a b : Str}, lexLe a b = true → lexLe b a = true → a = b
  | [], [], _, _ => rfl
  | [], _ :: _, _, h => by simp [lexLe] at h
  | _ :: _, [], h, _ => by simp [lexLe] at h
  | a :: as, b :: bs, h1, h2 => by
    simp only [lexLe] at h1 h2
    by_cases hab : a < b
    · have : ¬ b < a := Nat.lt_asymm hab
      simp [hab, this] at h2
    · by_cases hba : b < a
      · simp [hab, hba] at h1
      · have hab' : a = b := Nat.le_antisymm (Nat.not_lt.mp hba) (Nat.not_lt.mp hab)
        subst hab'
        simp only [Nat.lt_irrefl, if_false] at h1 h2
        exact congrArg (a :: ·) (lexLe_antisymm h1 h2)

theorem lexLe_trans : ∀ {a b c : Str},
    lexLe a b = true → lexLe b c = true → lexLe a c = true
  | [], _, _, _, _ => rfl
  | _ :: _, [], _, h, _ => by simp [lexLe] at h
  | _ :: _, _ :: _, [], _, h => by simp [lexLe] at h
  | a :: as, b :: bs, c :: cs, h1, h2 => by
    simp only [lexLe] at h1 h2 ⊢
    rcases Nat.lt_trichotomy a b with hab | hab | hab
    · rcases Nat.lt_trichotomy b c with hbc | hbc | hbc
      · simp [Nat.lt_trans hab hbc]
      · subst hbc; simp [hab]
      · exfalso; simp [Nat.lt_asymm hbc, hbc] at h2
    · subst hab
      rcases Nat.lt_trichotomy a c with hac | hac | hac
      · simp [hac]
      · subst hac
        simp only [Nat.lt_irrefl, if_false] at h1 h2 ⊢
        exact lexLe_trans h1 h2
      · exfalso; simp [Nat.lt_asymm hac, hac] at h2
    · exfalso; simp [Nat.lt_asymm hab, hab] at h1

instance : IsTrans Str strLe where
  trans _ _ _ h1 h2 := lexLe_trans h1 h2

instance : IsAntisymm Str strLe where
  antisymm _ _ h1 h2 := lexLe_antisymm h1 h2

instance : IsTotal Str strLe where
  total a b := lexLe_total a b

/-- Python `sorted` on a list of strings (ascending lexicographic).
Modelled by insertion sort; the order is total and antisymmetric, so the
sorted result is the unique sorted permutation, as for Python's sort. -/
def pySorted (l : List Str) : List Str := l.insertionSort strLe

theorem pySorted_congr_perm {l l' : List Str} (h : l.Perm l') :
    pySorted l = pySorted l' :=
  List.eq_of_perm_of_sorted
    (((List.perm_insertionSort strLe l).trans h).trans
      (List.perm_insertionSort strLe l').symm)
    (List.sorted_insertionSort strLe l)
    (List.sorted_insertionSort strLe l')

/-! ### Whitespace and case lemmas -/

theorem dropWhile_append_space {a b : Str} (h : AllSpace a) :
    (a ++ b).dropWhile isPySpace = b.dropWhile isPySpace := by
  induction a with
  | nil => rfl
  | cons c cs ih =>
    have hc : isPySpace c = true := h c (List.mem_cons_self c cs)
    have hcs : AllSpace cs := fun x hx => h x (List.mem_cons_of_mem c hx)
    simp [List.dropWhile, hc, ih hcs]

theorem dropWhile_append_of_ne_nil {p : Nat → Bool} {a : Str} (b : Str)
    (h : a.dropWhile p ≠ []) :
    (a ++ b).dropWhile p = a.dropWhile p ++ b := by
  induction a with
  | nil => exact absurd rfl h
  | cons c cs ih =>
    by_cases hc : p c = true
    · simp only [List.dropWhile, hc] at h ⊢
      exact ih h
    · have hc' : p c = false := Bool.eq_false_iff.mpr hc
      simp [List.dropWhile, hc']

theorem allSpace_reverse {a : Str} (h : AllSpace a) : AllSpace a.reverse :=
  fun c hc => h c (List.mem_reverse.mp hc)

theorem trimRight_append_space {r : Str} (h : AllSpace r) (s : Str) :
    trimRight (s ++ r) = trimRight s := by
  unfold trimRight
  rw [List.reverse_append, dropWhile_append_space (allSpace_reverse h)]

theorem trimLeft_append_space {l : Str} (h : AllSpace l) (s : Str) :
    trimLeft (l ++ s) = trimLeft s :=
  dropWhile_append_space h

/-- Stripping is unchanged by whitespace padding on both sides:
`(l ++ s ++ r).strip() == s.strip()`. -/
theorem pyStrip_pad {l r : Str} (hl : AllSpace l) (hr : AllSpace r) (s : Str) :
    pyStrip (l ++ s ++ r) = pyStrip s := by
  unfold pyStrip
  rw [trimRight_append_space hr]
  by_cases hs : s.reverse.dropWhile isPySpace = []
  · have h1 : trimRight (l ++ s) = [] := by
      unfold trimRight
      rw [List.reverse_append]
      have hsr : AllSpace s.reverse := by
        intro c hc
        have := List.dropWhile_eq_nil_iff.mp hs
        exact this c hc
      rw [dropWhile_append_space hsr]
      simp [List.dropWhile_eq_nil_iff.mpr (fun c hc => allSpace_reverse hl c hc)]
    have h2 : trimRight s = [] := by
      unfold trimRight; rw [hs]; rfl
    rw [h1, h2]
  · have h1 : trimRight (l ++ s) = l ++ trimRight s := by
      unfold trimRight
      rw [List.reverse_append, dropWhile_append_of_ne_nil _ hs, List.reverse_append,
        List.reverse_reverse]
    rw [h1, trimLeft_append_space hl]

theorem lowerChar_space {c : Nat} (h : isPySpace c = true) : lowerChar c = c := by
  simp only [isPySpace, Bool.or_eq_true, beq_iff_eq] at h
  rcases h with ((((h | h) | h) | h) | h) | h <;> subst h <;> rfl

theorem allSpace_pyLower {a : Str} (h : AllSpace a) : AllSpace (pyLower a) := by
  intro c hc
  rcases List.mem_map.mp hc with ⟨d, hd, rfl⟩
  rw [lowerChar_space (h d hd)]
  exact h d hd

theorem lowerChar_upperChar (c : Nat) : lowerChar (upperChar c) = lowerChar c := by
  unfold lowerChar upperChar
  split_ifs <;> omega

theorem lowerChar_lowerChar (c : Nat) : lowerChar (lowerChar c) = lowerChar c := by
  unfold lowerChar
  split_ifs <;> omega

/-- One code point is a case-variant of another: unchanged, upper-cased
or lower-cased. -/
def CaseRel (c d : Nat) : Prop := d = c ∨ d = upperChar c ∨ d = lowerChar c

theorem lowerChar_caseRel {c d : Nat} (h : CaseRel c d) : lowerChar d = lowerChar c := by
  rcases h with rfl | rfl | rfl
  · rfl
  · exact lowerChar_upperChar c
  · exact lowerChar_lowerChar c

theorem pyLower_caseVariant {s t : Str} (h : List.Forall₂ CaseRel s t) :
    pyLower t = pyLower s := by
  induction h with
  | nil => rfl
  | cons hcd _ ih =>
    simp only [pyLower, List.map_cons] at ih ⊢
    rw [lowerChar_caseRel hcd, ih]

/-- `t` differs from `s` only by letter case and by leading/trailing
whitespace. -/
def StrVariant (s t : Str) : Prop :=
  ∃ l r m, AllSpace l ∧ AllSpace r ∧ List.Forall₂ CaseRel s m ∧ t = l ++ m ++ r

theorem StrVariant.refl (s : Str) : StrVariant s s :=
  ⟨[], [], s, fun _ h => absurd h (List.not_mem_nil _), fun _ h => absurd h (List.not_mem_nil _),
    List.forall₂_same.mpr (fun _ _ => Or.inl rfl), by simp⟩

/-- The address normalization `addr.lower().strip()` used by
`_generate_email_hash` is invariant under case changes and
leading/trailing whitespace. -/
theorem normalizeAddr_variant {s t : Str} (h : StrVariant s t) :
    pyStrip (pyLower t) = pyStrip (pyLower s) := by
  rcases h with ⟨l, r, m, hl, hr, hm, rfl⟩
  have : pyLower (l ++ m ++ r) = pyLower l ++ pyLower m ++ pyLower r := by
    simp [pyLower]
  rw [this, pyStrip_pad (allSpace_pyLower hl) (allSpace_pyLower hr),
    pyLower_caseVariant hm]

/-! ### Canonical serialization and digest
(`AdvancedEmailService._generate_email_hash`, server.py lines 372-383) -/

/-- Modelled from the spec (external collaborator `hashlib.sha256`): a
fixed deterministic 256-bit digest of the input byte string.  A 256-bit
polynomial rolling hash stands in for the SHA-256 compression function,
which is not part of this repository; every claim about the fingerprint
depends only on the digest being a deterministic function of its input. -/
def sha256Model (s : Str) : Nat :=
  s.foldl (fun h c => (h * 131 + c + 1) % 2 ^ 256) 0

/-- JSON string escaping (quote and backslash), as `json.dumps`. -/
def jsonEscape (s : Str) : Str :=
  s.flatMap (fun c => if c == 34 || c == 92 then [92, c] else [c])

/-- A JSON string literal: `"..."` with escaping. -/
def jsonString (s : Str) : Str := 34 :: (jsonEscape s ++ [34])

/-- Comma-and-space separated concatenation, as `json.dumps`'s default
item separator. -/
def joinSep (sep : Str) : List Str → Str
  | [] => []
  | [x] => x
  | x :: y :: rest => x ++ sep ++ joinSep sep (y :: rest)

/-- A JSON array of string literals: `[...]`. -/
def jsonStrArray (l : List Str) : Str :=
  91 :: (joinSep (litStr ", ") (l.map jsonString) ++ [93])

/-- `json.dumps(normalized_content, sort_keys=True)`: the canonical,
deterministically-ordered serialization of the normalized email, with
the keys in sorted order
(`attachments`, `body`, `from`, `subject`, `to`). -/
def canonicalJson (fromA : Str) (toAddrs : List Str) (subject body : Str)
    (attachments : List Str) : Str :=
  123 :: (litStr "\"attachments\": " ++ jsonStrArray attachments
    ++ litStr ", \"body\": " ++ jsonString body
    ++ litStr ", \"from\": " ++ jsonString fromA
    ++ litStr ", \"subject\": " ++ jsonString subject
    ++ litStr ", \"to\": " ++ jsonStrArray toAddrs ++ [125])

/-- The normalization `addr.lower().strip()` applied by
`_generate_email_hash` to the sender and each recipient. -/
def normalizeAddr (s : Str) : Str := pyStrip (pyLower s)

/-- The email-content dict handed to `_generate_email_hash` (the
`EmailData` shape: sender, recipients, subject, body, attachments as
strings).  Each field of the Python dict is either absent (`none`),
present but `null` (`some none`), or a proper value (`some (some v)`);
pydantic's `EmailData` allows `null` for the optional `attachments`
field. -/
structure EmailDict where
  from_address : Option (Option Str)
  to_addresses : Option (Option (List Str))
  subject : Option (Option Str)
  body : Option (Option Str)
  attachments : Option (Option (List Str))

/-- Python `dict.get(key, default)` followed by use of the value as a
string/list: an absent key yields the default, while a key present with
value `None` yields `None` itself, on which the subsequent method call
or `sorted(...)` raises (`none` result). -/
def dictGet {α : Type} (field : Option (Option α)) (dflt : α) : Option α :=
  match field with
  | none => some dflt
  | some none => none
  | some (some v) => some v

/-- `AdvancedEmailService._generate_email_hash` (server.py 372-383):
lower-case and strip the sender, lower-case/strip then sort the
recipients, strip subject and body, sort the attachments, serialize
with sorted keys, and hash.  `none` models a raised exception. -/
def generate_email_hash (e : EmailDict) : Option Nat :=
  match dictGet e.from_address [], dictGet e.to_addresses [],
        dictGet e.subject [], dictGet e.body [], dictGet e.attachments [] with
  | some f, some t, some s, some b, some a =>
      some (sha256Model (canonicalJson (normalizeAddr f)
        (pySorted (t.map normalizeAddr)) (pyStrip s) (pyStrip b) (pySorted a)))
  | _, _, _, _, _ => none

theorem map_normalizeAddr_variant {t t₂ : List Str}
    (h : List.Forall₂ StrVariant t t₂) :
    t₂.map normalizeAddr = t.map normalizeAddr := by
  induction h with
  | nil => rfl
  | cons hv _ ih =>
    simp only [List.map_cons, ih]
    rw [show normalizeAddr _ = normalizeAddr _ from normalizeAddr_variant hv]

theorem generate_email_hash_eq (e : EmailDict) (f : Str) (t : List Str)
    (s b : Str) (a : List Str)
    (hf : dictGet e.from_address [] = some f)
    (ht : dictGet e.to_addresses [] = some t)
    (hs : dictGet e.subject [] = some s)
    (hb : dictGet e.body [] = some b)
    (ha : dictGet e.attachments [] = some a) :
    generate_email_hash e = some (sha256Model (canonicalJson (normalizeAddr f)
      (pySorted (t.map normalizeAddr)) (pyStrip s) (pyStrip b) (pySorted a))) := by
  unfold generate_email_hash
  rw [hf, ht, hs, hb, ha]

theorem dictGet_isSome_of_ne_null {α : Type} {field : Option (Option α)}
    {dflt : α} (h : field ≠ some none) : ∃ v, dictGet field dflt = some v := by
  match field with
  | none => exact ⟨dflt, rfl⟩
  | some none => exact absurd rfl h
  | some (some v) => exact ⟨v, rfl⟩

/-- C6: the fingerprint is a pure function of the normalized content:
permuting the recipient list, changing the case of sender/recipient
addresses, or padding sender, recipients, subject, or body with
leading/trailing whitespace yields the identical fingerprint as the
unmodified email.  (`t'` is a permutation of `t₂`, which is a pointwise
case/whitespace variant of `t`; equality with whitespace removed follows
by symmetry of the stated equality.) -/
theorem fingerprint_pure_function_of_normalized_content
    (f f' : Str) (t t' t₂ : List Str) (s b : Str) (a : List Str)
    (sl sr bl br : Str)
    (hf : StrVariant f f')
    (hvar : List.Forall₂ StrVariant t t₂)
    (hperm : t'.Perm t₂)
    (hsl : AllSpace sl) (hsr : AllSpace sr)
    (hbl : AllSpace bl) (hbr : AllSpace br) :
    generate_email_hash ⟨some (some f'), some (some t'),
        some (some (sl ++ s ++ sr)), some (some (bl ++ b ++ br)),
        some (some a)⟩
      = generate_email_hash ⟨some (some f), some (some t),
        some (some s), some (some b), some (some a)⟩ := by
  simp only [generate_email_hash, dictGet]
  rw [show normalizeAddr f' = normalizeAddr f from normalizeAddr_variant hf,
    pyStrip_pad hsl hsr, pyStrip_pad hbl hbr]
  rw [show pySorted (t'.map normalizeAddr) = pySorted (t.map normalizeAddr) from
    (pySorted_congr_perm (hperm.map normalizeAddr)).trans
      (congrArg pySorted (map_normalizeAddr_variant hvar))]

/-- Witness for C6 at a concrete email: sender `"A@x"` replaced by
`" a@x"` (case change + leading space), recipients `["b@x", "a@x"]`
reordered to `["a@x", "b@x"]`, subject and body padded with a leading
space. -/
theorem fingerprint_pure_function_of_normalized_content_witness :
    generate_email_hash ⟨some (some [32, 97, 64, 120]),
        some (some [[97, 64, 120], [98, 64, 120]]),
        some (some ([32] ++ [72, 105] ++ [])),
        some (some ([32] ++ [66] ++ [])), some (some [])⟩
      = generate_email_hash ⟨some (some [65, 64, 120]),
        some (some [[98, 64, 120], [97, 64, 120]]),
        some (some [72, 105]), some (some [66]), some (some [])⟩ :=
  fingerprint_pure_function_of_normalized_content
    [65, 64, 120] [32, 97, 64, 120]
    [[98, 64, 120], [97, 64, 120]] [[97, 64, 120], [98, 64, 120]]
    [[98, 64, 120], [97, 64, 120]]
    [72, 105] [66] [] [32] [] [32] []
    ⟨[32], [], [97, 64, 120], by decide, by decide,
      List.Forall₂.cons (Or.inr (Or.inr (by decide)))
        (List.Forall₂.cons (Or.inl rfl)
          (List.Forall₂.cons (Or.inl rfl) List.Forall₂.nil)), rfl⟩
    (List.forall₂_same.mpr fun x _ => StrVariant.refl x)
    (List.Perm.swap [98, 64, 120] [97, 64, 120] [])
    (by decide) (by decide) (by decide) (by decide)

/-- C7 counterexample: a dict whose optional `attachments` field is
present but `null` (allowed by pydantic's `EmailData`, where
`attachments: Optional[List[str]]`) makes `_generate_email_hash` raise
(`sorted(None)` is a `TypeError`), so the function does not totally
compute a digest on every input with an absent-or-null optional field. -/
theorem fingerprint_not_total_on_null_attachments :
    generate_email_hash ⟨some (some [97, 64, 120]),
        some (some [[98, 64, 120]]), some (some [72, 105]),
        some (some [66]), some none⟩ = none := by decide

/-- C7 as amended: on every input whose fields are each absent or a
proper value (none is an explicit `null`), `_generate_email_hash`
totally computes a digest, and absent optional fields are treated
exactly as the empty string/empty list. -/
theorem fingerprint_total_on_non_null_fields (e : EmailDict)
    (h1 : e.from_address ≠ some none) (h2 : e.to_addresses ≠ some none)
    (h3 : e.subject ≠ some none) (h4 : e.body ≠ some none)
    (h5 : e.attachments ≠ some none) :
    (generate_email_hash e).isSome = true ∧
      generate_email_hash e = generate_email_hash
        ⟨some (some ((dictGet e.from_address []).getD [])),
         some (some ((dictGet e.to_addresses []).getD [])),
         some (some ((dictGet e.subject []).getD [])),
         some (some ((dictGet e.body []).getD [])),
         some (some ((dictGet e.attachments []).getD []))⟩ := by
  obtain ⟨f, hf⟩ := dictGet_isSome_of_ne_null h1
  obtain ⟨t, ht⟩ := dictGet_isSome_of_ne_null h2
  obtain ⟨s, hs⟩ := dictGet_isSome_of_ne_null h3
  obtain ⟨b, hb⟩ := dictGet_isSome_of_ne_null h4
  obtain ⟨a, ha⟩ := dictGet_isSome_of_ne_null h5
  have hL := generate_email_hash_eq e f t s b a hf ht hs hb ha
  constructor
  · rw [hL]; rfl
  · rw [hL, hf, ht, hs, hb, ha]
    simp only [Option.getD_some]
    rw [generate_email_hash_eq ⟨some (some f), some (some t), some (some s),
      some (some b), some (some a)⟩ f t s b a rfl rfl rfl rfl rfl]

/-- Witness for the amended C7 at a dict with all optional fields
absent: the digest is computed and equals that of the all-empty email. -/
theorem fingerprint_total_on_non_null_fields_witness :
    (generate_email_hash ⟨none, none, none, none, none⟩).isSome = true ∧
      generate_email_hash ⟨none, none, none, none, none⟩
        = generate_email_hash ⟨some (some []), some (some []),
            some (some []), some (some []), some (some [])⟩ :=
  fingerprint_total_on_non_null_fields ⟨none, none, none, none, none⟩
    (by decide) (by decide) (by decide) (by decide) (by decide)

/-! ### Encrypted object store (`IPFSService`, server.py lines 54-99) -/

/-- Modelled from the spec (external collaborator `cryptography.Fernet`):
an authenticated symmetric cipher under the process-wide key, with
`decrypt (encrypt p) = p` and decryption failing on any non-token.
Fernet tokens begin with the version byte `0x80`. -/
def fernetEncrypt (p : Str) : Str := 128 :: p

/-- Modelled from the spec: Fernet decryption; `none` models the
`InvalidToken` exception on an unauthenticated ciphertext. -/
def fernetDecrypt (c : Str) : Option Str :=
  match c with
  | 128 :: p => some p
  | _ => none

/-- Modelled from the spec (external collaborator, content-addressed
backend): the content address the IPFS node computes for a stored byte
string (`client.add_bytes`). -/
def ipfsAddr (c : Str) : Nat := sha256Model c

/-- Decimal-digit rendering of a natural number, for embedding Python
`str(...)` of numbers. -/
def natDigits (n : Nat) : Str := (Nat.toDigits 10 n).map Char.toNat

/-- The fabricated "simulated IPFS hash" the service returns when the
backend is unavailable or raises:
`sha256(str(time.time()) + str(len(content)))[:46]` — a 46-hex-digit
(184-bit) prefix of a digest of the clock and the payload length. -/
def simulatedIpfsHash (clock len : Nat) : Nat :=
  sha256Model (natDigits clock ++ natDigits len) % 2 ^ 184

/-- State of `IPFSService`: whether `ipfshttpclient.connect` succeeded
(`client`), whether backend calls raise (`addFails`), the
content-addressed object map of the backend node, and a clock modelling
`time.time()` (advanced on each call). -/
structure IPFSState where
  client : Option Unit
  addFails : Bool
  objects : List (Nat × Str)
  clock : Nat

/-- First-match lookup in the backend's object map (`client.cat`). -/
def lookupObj : List (Nat × Str) → Nat → Option Str
  | [], _ => none
  | (k, v) :: rest, h => if k = h then some v else lookupObj rest h

/-- `IPFSService.store_encrypted_content` (server.py 68-86): encrypt the
content; if the client is connected and the backend call succeeds, add
the ciphertext to the node and return its content address.  If the
client is absent, or the backend call raises, return a fabricated
simulated hash — the function's type has no error outcome at all. -/
def store_encrypted_content (s : IPFSState) (content : Str) : IPFSState × Nat :=
  let ct := fernetEncrypt content
  match s.client with
  | some _ =>
    if s.addFails then
      ({ s with clock := s.clock + 1 }, simulatedIpfsHash s.clock content.length)
    else
      ({ s with objects := (ipfsAddr ct, ct) :: s.objects, clock := s.clock + 1 },
        ipfsAddr ct)
  | none =>
    ({ s with clock := s.clock + 1 }, simulatedIpfsHash s.clock content.length)

inductive ApiError
  | insufficientCredit    -- HTTP 402, "Insufficient email credits..."
  | payloadTooLarge       -- HTTP 413, "Attachment too large..."
  | emailNotFound         -- HTTP 404, "Email not found"
  | notStoredInIpfs       -- HTTP 400, "Email not stored in IPFS"
  | contentNotFound       -- HTTP 404, "Content not found in IPFS"
  | serverError           -- HTTP 500
deriving DecidableEq, Repr

/-- The placeholder bytes `b"Simulated IPFS content retrieval"` returned
by retrieval when no client is connected. -/
def simulatedRetrievalContent : Str := litStr "Simulated IPFS content retrieval"

/-- `IPFSService.retrieve_encrypted_content` (server.py 88-99): with a
connected client, fetch by handle and decrypt, turning any backend or
decryption exception into HTTP 404 "Content not found in IPFS"; with no
client, return placeholder bytes. -/
def retrieve_encrypted_content (s : IPFSState) (h : Nat) : Except ApiError Str :=
  match s.client with
  | some _ =>
    match lookupObj s.objects h with
    | some ct =>
      match fernetDecrypt ct with
      | some p => Except.ok p
      | none => Except.error ApiError.contentNotFound
    | none => Except.error ApiError.contentNotFound
  | none => Except.ok simulatedRetrievalContent

/-- C4 (code violating the claim): with the backend unavailable
(`client = None`), `store_encrypted_content` does not report any error:
it returns the fabricated, plausible-looking simulated hash while
storing nothing, for the concrete payload `b"hello"` (and the return
type of the embedded function shows no distinct error outcome exists on
any path). -/
theorem store_fabricates_handle_when_backend_unavailable :
    store_encrypted_content ⟨none, false, [], 0⟩ (litStr "hello")
      = (⟨none, false, [], 1⟩, simulatedIpfsHash 0 5) ∧
    (store_encrypted_content ⟨none, false, [], 0⟩ (litStr "hello")).1.objects = [] := by
  constructor <;> rfl

/-- C5 counterexample: with the backend unavailable, the handle returned
by `put` for the payload `b"hello"` does not round-trip: `get` returns
the placeholder bytes, not the payload. -/
theorem roundtrip_fails_when_backend_unavailable :
    retrieve_encrypted_content
        (store_encrypted_content ⟨none, false, [], 0⟩ (litStr "hello")).1
        (store_encrypted_content ⟨none, false, [], 0⟩ (litStr "hello")).2
      = Except.ok simulatedRetrievalContent
    ∧ simulatedRetrievalContent ≠ litStr "hello" :=
  ⟨rfl, by decide⟩

/-- C5 as amended: for every byte payload `p`, when the IPFS client is
connected and the backend add succeeds, retrieving by the handle
returned when storing `p` yields exactly `p` back:
`get (put p) = p`. -/
theorem store_retrieve_roundtrip (s : IPFSState) (p : Str)
    (hc : s.client = some ()) (hf : s.addFails = false) :
    retrieve_encrypted_content (store_encrypted_content s p).1
      (store_encrypted_content s p).2 = Except.ok p := by
  simp only [store_encrypted_content, hc, hf, if_false, Bool.false_eq_true]
  simp only [retrieve_encrypted_content, hc, lookupObj, if_pos rfl]
  rfl

/-- Witness for the amended C5 at a concrete connected state and the
payload `[1, 2, 3]`. -/
theorem store_retrieve_roundtrip_witness :
    retrieve_encrypted_content
        (store_encrypted_content ⟨some (), false, [], 0⟩ [1, 2, 3]).1
        (store_encrypted_content ⟨some (), false, [], 0⟩ [1, 2, 3]).2
      = Except.ok [1, 2, 3] :=
  store_retrieve_roundtrip ⟨some (), false, [], 0⟩ [1, 2, 3] rfl rfl

/-! ### Subscription-tier catalog (`SUBSCRIPTION_TIERS`, server.py 189-214)
and user accounts -/

inductive Tier
  | basic
  | pro
  | enterprise
deriving DecidableEq, Repr

structure TierConfig where
  name : Str
  priceCents : Nat           -- prices in cents (0.0 / 19.99 / 99.99 USD)
  credits_per_month : Nat
  features : List Str
  max_attachment_size : Nat  -- in MB
  encryption_level : Str

/-- The static subscription-tier catalog. -/
def SUBSCRIPTION_TIERS : Tier → TierConfig
  | .basic =>
    ⟨litStr "Basic", 0, 10,
      [litStr "basic_encryption", litStr "standard_timestamps"], 5,
      litStr "standard"⟩
  | .pro =>
    ⟨litStr "Pro", 1999, 100,
      [litStr "advanced_encryption", litStr "ipfs_storage",
        litStr "delivery_guarantees", litStr "ricardian_contracts"], 50,
      litStr "advanced"⟩
  | .enterprise =>
    ⟨litStr "Enterprise", 9999, 1000,
      [litStr "advanced_encryption", litStr "ipfs_storage",
        litStr "delivery_guarantees", litStr "ricardian_contracts",
        litStr "sla_contracts", litStr "priority_support"], 500,
      litStr "enterprise"⟩

/-- A `users` collection document (the `User` model, server.py 143-150):
`email_credits` is a Mongo integer, so modelled as `Int` — the claims
concern whether it can in fact go negative. -/
structure UserDoc where
  id : Nat
  subscription_tier : Tier
  email_credits : Int
  premium_features : List Str
deriving DecidableEq, Repr

/-! ### Credit ledger (the debit in `send_email_advanced`, server.py
700-707 and 752-756, and the credit grants of
`PaymentService._process_successful_payment`) -/

/-- The debit of one credit performed by a send: `send_email_advanced`
rejects with HTTP 402 when `email_credits <= 0` (server.py 700-707) and
otherwise ends with `$inc: {email_credits: -1}` (752-756). -/
def debitForSend (b : Int) : Except ApiError Int :=
  if b ≤ 0 then Except.error ApiError.insufficientCredit else Except.ok (b - 1)

/-- One ledger operation on an account's balance: the send-pipeline
debit, or a non-negative credit grant
(`$inc: {email_credits: credits_granted}`). -/
inductive LedgerOp
  | debit
  | credit (n : Nat)

/-- The balance after one ledger operation; a rejected debit leaves the
balance unchanged. -/
def applyLedgerOp (b : Int) : LedgerOp → Int
  | .debit =>
    match debitForSend b with
    | Except.ok b' => b'
    | Except.error _ => b
  | .credit n => b + n

/-- The balance after a sequence of ledger operations. -/
def runLedger (b : Int) (ops : List LedgerOp) : Int := ops.foldl applyLedgerOp b

theorem applyLedgerOp_nonneg {b : Int} (h : 0 ≤ b) (op : LedgerOp) :
    0 ≤ applyLedgerOp b op := by
  cases op with
  | debit =>
    unfold applyLedgerOp debitForSend
    by_cases hb : b ≤ 0
    · simpa [hb] using h
    · simp only [hb, if_false]
      omega
  | credit n =>
    unfold applyLedgerOp
    positivity

/-- C1: starting from any non-negative balance, after every sequence of
credit and debit operations the balance is still `≥ 0` (so it is `≥ 0`
at every intermediate point, each prefix being itself a sequence); and a
debit that would make the balance negative fails with
`InsufficientCredit` and leaves the balance exactly unchanged — not
clamped. -/
theorem credit_balance_never_negative (b₀ : Int) (h₀ : 0 ≤ b₀)
    (ops : List LedgerOp) :
    0 ≤ runLedger b₀ ops ∧
    ∀ b : Int, 0 ≤ b → b - 1 < 0 →
      debitForSend b = Except.error ApiError.insufficientCredit ∧
      applyLedgerOp b LedgerOp.debit = b := by
  constructor
  · induction ops generalizing b₀ with
    | nil => exact h₀
    | cons op rest ih => exact ih _ (applyLedgerOp_nonneg h₀ op)
  · intro b hb hb1
    have hb0 : b ≤ 0 := by omega
    refine ⟨?_, ?_⟩
    · simp [debitForSend, hb0]
    · simp [applyLedgerOp, debitForSend, hb0]

/-- Witness for C1: balance 2, then debit, debit, credit 5, debit,
debit, debit (the last two debits hitting zero) stays non-negative, and
a debit at balance 0 is rejected unchanged. -/
theorem credit_balance_never_negative_witness :
    (0 : Int) ≤ 2 ∧
    0 ≤ runLedger 2 [LedgerOp.debit, LedgerOp.debit, LedgerOp.credit 5,
      LedgerOp.debit, LedgerOp.debit, LedgerOp.debit] ∧
    debitForSend 0 = Except.error ApiError.insufficientCredit ∧
    applyLedgerOp 0 LedgerOp.debit = 0 := by
  have h := credit_balance_never_negative 2 (by decide)
    [LedgerOp.debit, LedgerOp.debit, LedgerOp.credit 5,
      LedgerOp.debit, LedgerOp.debit, LedgerOp.debit]
  exact ⟨by decide, h.1, h.2 0 (by decide) (by decide)⟩

/-! ### Server state: Mongo collections and services -/

/-- An `email_records` collection document (the `EmailRecord` model,
server.py 152-164), with the simulated Hedera reference triple. -/
structure EmailRecordDoc where
  id : Nat
  user_id : Nat
  content_hash : Nat
  ipfs_hash : Option Nat
  hedera_transaction_id : Nat
  hedera_topic_id : Nat
  sequence_number : Nat
  encryption_level : Str
  delivery_guarantee : Bool
  timestamp : Nat
deriving DecidableEq, Repr

inductive PayStatus
  | pending
  | completed
deriving DecidableEq, Repr

/-- The package a checkout session was created for: a subscription tier
(`package_type = "subscription_<tier>"`) or a flat credit package
(`package_type = "credits_<name>"`). -/
inductive Package
  | subscription (t : Tier)
  | creditsPkg
deriving DecidableEq, Repr

/-- A `payment_transactions` collection document (the
`PaymentTransaction` model, server.py 166-178). -/
structure PaymentRecord where
  session_id : Nat
  user_id : Nat
  payment_status : PayStatus
  package_type : Package
  credits_granted : Nat
  payment_intent : Option Nat
deriving DecidableEq, Repr

/-- The server's mutable state: the Mongo collections, the IPFS service
state, and a fresh-id source modelling `uuid4`. -/
structure ServerState where
  users : List UserDoc
  email_records : List EmailRecordDoc
  payment_transactions : List PaymentRecord
  ipfs : IPFSState
  nextId : Nat

/-- `db.users.find_one({"id": uid})`: first match. -/
def findUser : List UserDoc → Nat → Option UserDoc
  | [], _ => none
  | u :: rest, uid => if u.id = uid then some u else findUser rest uid

/-- `db.users.update_one({"id": uid}, {"$inc": {"email_credits": d}})`:
increment on the first match. -/
def updateUserInc : List UserDoc → Nat → Int → List UserDoc
  | [], _, _ => []
  | u :: rest, uid, d =>
    if u.id = uid then { u with email_credits := u.email_credits + d } :: rest
    else u :: updateUserInc rest uid d

/-- `db.users.update_one({"id": uid}, {"$set": {"subscription_tier": t,
"premium_features": fs}, "$inc": {"email_credits": d}})`: the combined
subscription update on the first match. -/
def updateUserSub : List UserDoc → Nat → Tier → List Str → Int → List UserDoc
  | [], _, _, _, _ => []
  | u :: rest, uid, t, fs, d =>
    if u.id = uid then
      { u with
        subscription_tier := t
        premium_features := fs
        email_credits := u.email_credits + d } :: rest
    else u :: updateUserSub rest uid t fs d

/-- `db.payment_transactions.find_one({"session_id": sid})`. -/
def findTx : List PaymentRecord → Nat → Option PaymentRecord
  | [], _ => none
  | r :: rest, sid => if r.session_id = sid then some r else findTx rest sid

/-- `db.payment_transactions.update_one({"session_id": sid}, {"$set":
{"payment_status": "completed", "completed_at": ...,
"stripe_payment_intent_id": intent}})`. -/
def completeTx : List PaymentRecord → Nat → Option Nat → List PaymentRecord
  | [], _, _ => []
  | r :: rest, sid, intent =>
    if r.session_id = sid then
      { r with payment_status := PayStatus.completed, payment_intent := intent } :: rest
    else r :: completeTx rest sid intent

/-! ### Send pipeline (`send_email_advanced`, server.py 693-780, and
`AdvancedEmailService.store_email_with_ipfs`, 385-431) -/

/-- An uploaded attachment file (FastAPI `UploadFile`): filename and
content bytes. -/
structure Upload where
  filename : Str
  content : Str

/-- A processed attachment entry as built by the pipeline (server.py
729-734): a dict with filename, size, IPFS handle. -/
structure Attachment where
  filename : Str
  size : Nat
  ipfs_hash : Nat
deriving DecidableEq, Repr

/-- The request body (`EmailTimestampRequest` wrapping `EmailData`):
`attachments` is Optional in `EmailData`, though the pipeline overwrites
it with the processed uploads. -/
structure SendRequest where
  from_address : Str
  to_addresses : List Str
  subject : Str
  body : Str
  attachments : Option (List Str)

/-- The `email_data` dict inside the pipeline, after
`email_data["attachments"] = processed_attachments`: its attachments
are dicts, not strings. -/
structure PipelineEmail where
  from_address : Str
  to_addresses : List Str
  subject : Str
  body : Str
  attachments : List Attachment

/-- Python `sorted` on a list of dicts: returns the list for zero or one
element (no comparison is evaluated), raises `TypeError` (modelled as
`none`) for two or more, since dicts are unordered. -/
def pySortedDicts {α : Type} : List α → Option (List α)
  | [] => some []
  | [x] => some [x]
  | _ => none

/-- `json.dumps(..., sort_keys=True)` of a processed-attachment dict
(keys sorted: `content_type`, `filename`, `ipfs_hash`, `size`). -/
def attachmentJson (a : Attachment) : Str :=
  123 :: (litStr "\"content_type\": \"application/octet-stream\", \"filename\": "
    ++ jsonString a.filename
    ++ litStr ", \"ipfs_hash\": " ++ jsonString (natDigits a.ipfs_hash)
    ++ litStr ", \"size\": " ++ natDigits a.size ++ [125])

/-- The canonical serialization of the normalized email as produced
inside `_generate_email_hash` when called from the send pipeline, where
attachments are dicts. -/
def canonicalJsonP (fromA : Str) (toAddrs : List Str) (subject body : Str)
    (attachments : List Attachment) : Str :=
  123 :: (litStr "\"attachments\": "
    ++ (91 :: (joinSep (litStr ", ") (attachments.map attachmentJson) ++ [93]))
    ++ litStr ", \"body\": " ++ jsonString body
    ++ litStr ", \"from\": " ++ jsonString fromA
    ++ litStr ", \"subject\": " ++ jsonString subject
    ++ litStr ", \"to\": " ++ jsonStrArray toAddrs ++ [125])

/-- `_generate_email_hash` as invoked from the send pipeline (same
source function as `generate_email_hash`, at the pipeline's input type:
all fields present, attachments a list of dicts, whose `sorted(...)`
raises for two or more entries). -/
def pipeline_email_hash (e : PipelineEmail) : Option Nat :=
  (pySortedDicts e.attachments).map (fun atts =>
    sha256Model (canonicalJsonP (normalizeAddr e.from_address)
      (pySorted (e.to_addresses.map normalizeAddr))
      (pyStrip e.subject) (pyStrip e.body) atts))

/-- `json.dumps` of the raw `email_data` dict (insertion-ordered keys). -/
def rawEmailJson (e : PipelineEmail) : Str :=
  123 :: (litStr "\"from_address\": " ++ jsonString e.from_address
    ++ litStr ", \"to_addresses\": " ++ jsonStrArray e.to_addresses
    ++ litStr ", \"subject\": " ++ jsonString e.subject
    ++ litStr ", \"body\": " ++ jsonString e.body
    ++ litStr ", \"attachments\": "
    ++ (91 :: (joinSep (litStr ", ") (e.attachments.map attachmentJson) ++ [93]))
    ++ [125])

/-- `json.dumps(email_content).encode()`: the bytes persisted to the
object store for an email (server.py 393-401). -/
def storedEmailJson (e : PipelineEmail) (contentHash : Nat) (enc : Str)
    (ts : Nat) : Str :=
  123 :: (litStr "\"email_data\": " ++ rawEmailJson e
    ++ litStr ", \"content_hash\": " ++ jsonString (natDigits contentHash)
    ++ litStr ", \"encryption_level\": " ++ jsonString enc
    ++ litStr ", \"timestamp\": " ++ jsonString (natDigits ts) ++ [125])

/-- `AdvancedEmailService.store_email_with_ipfs` (server.py 385-431):
hash the content, store the serialized email via
`store_encrypted_content`, build the `EmailRecord` with the simulated
Hedera triple and insert it.  `Except.error` models the re-raised
exception (`Failed to store email with IPFS`). -/
def store_email_with_ipfs (st : ServerState) (e : PipelineEmail) (uid : Nat)
    (enc : Str) (dg : Bool) : Except Unit EmailRecordDoc × ServerState :=
  match pipeline_email_hash e with
  | none => (Except.error (), st)
  | some ch =>
    let res := store_encrypted_content st.ipfs (storedEmailJson e ch enc st.ipfs.clock)
    let r : EmailRecordDoc :=
      ⟨st.nextId, uid, ch, some res.2, res.1.clock, 123456, res.1.clock % 1000,
        enc, dg, res.1.clock⟩
    (Except.ok r,
      { st with
        ipfs := res.1
        email_records := st.email_records ++ [r]
        nextId := st.nextId + 1 })

/-- The successful-send response payload (the fields of the claims:
record id, content hash, storage handle, and
`credits_remaining = email_credits - 1`). -/
structure SendResponse where
  email_id : Nat
  content_hash : Nat
  ipfs_hash : Option Nat
  credits_remaining : Int
deriving DecidableEq, Repr

/-- The attachment-processing loop of `send_email_advanced` (server.py
713-734): for each upload, check the tier's size ceiling
(`size_mb > max_attachment_size` → HTTP 413), then store the encrypted
content in IPFS and append the processed entry. -/
def processAttachments (tierCfg : TierConfig) :
    IPFSState → List Upload → Except ApiError (List Attachment) × IPFSState
  | ipfs, [] => (Except.ok [], ipfs)
  | ipfs, u :: rest =>
    if u.content.length > tierCfg.max_attachment_size * 1048576 then
      (Except.error ApiError.payloadTooLarge, ipfs)
    else
      let res := store_encrypted_content ipfs u.content
      match processAttachments tierCfg res.1 rest with
      | (Except.ok atts, ipfs') =>
        (Except.ok (⟨u.filename, u.content.length, res.2⟩ :: atts), ipfs')
      | (Except.error err, ipfs') => (Except.error err, ipfs')

/-- `send_email_advanced` (server.py 693-780): credit check first
(HTTP 402 if the user is missing or `email_credits <= 0`), then
attachment processing, then `store_email_with_ipfs`, then the debit
`$inc: {email_credits: -1}`.  The returned state reflects all mutations
performed up to the point of success or failure. -/
def send_email_advanced (st : ServerState) (uid : Nat) (req : SendRequest)
    (uploads : List Upload) : Except ApiError SendResponse × ServerState :=
  match findUser st.users uid with
  | none => (Except.error ApiError.insufficientCredit, st)
  | some u =>
    if u.email_credits ≤ 0 then (Except.error ApiError.insufficientCredit, st)
    else
      let tierCfg := SUBSCRIPTION_TIERS u.subscription_tier
      match processAttachments tierCfg st.ipfs uploads with
      | (Except.error err, ipfs') => (Except.error err, { st with ipfs := ipfs' })
      | (Except.ok processed, ipfs') =>
        let e : PipelineEmail :=
          ⟨req.from_address, req.to_addresses, req.subject, req.body, processed⟩
        let dg := decide (litStr "delivery_guarantees" ∈ tierCfg.features)
        match store_email_with_ipfs { st with ipfs := ipfs' } e uid
            tierCfg.encryption_level dg with
        | (Except.error _, st') => (Except.error ApiError.serverError, st')
        | (Except.ok r, st') =>
          (Except.ok ⟨r.id, r.content_hash, r.ipfs_hash, u.email_credits - 1⟩,
            { st' with users := updateUserInc st'.users uid (-1) })

/-! ### Payment reconciliation (`PaymentService`, server.py 442-623, and
`stripe_webhook`, 965-991) -/

/-- `PaymentService.create_subscription_checkout` (server.py 461-506):
after the provider session is created, insert a pending
`PaymentTransaction` whose `credits_granted` is the tier's monthly
allotment. -/
def create_subscription_checkout (st : ServerState) (tier : Tier)
    (uid sid : Nat) : ServerState :=
  { st with
    payment_transactions := st.payment_transactions ++
      [⟨sid, uid, PayStatus.pending, Package.subscription tier,
        (SUBSCRIPTION_TIERS tier).credits_per_month, none⟩] }

/-- `PaymentService.create_credits_checkout` (server.py 508-553):
insert a pending record for a flat credit package. -/
def create_credits_checkout (st : ServerState) (credits : Nat)
    (uid sid : Nat) : ServerState :=
  { st with
    payment_transactions := st.payment_transactions ++
      [⟨sid, uid, PayStatus.pending, Package.creditsPkg, credits, none⟩] }

/-- `PaymentService._process_successful_payment` (server.py 583-623):
mark the transaction completed (recording the payment intent), then for
a subscription package set the tier and recompute `premium_features`
from the catalog while incrementing credits, or for a credit package
increment credits only. -/
def process_successful_payment (st : ServerState) (r : PaymentRecord)
    (intent : Option Nat) : ServerState :=
  let txs := completeTx st.payment_transactions r.session_id intent
  let users :=
    match r.package_type with
    | Package.subscription t =>
      updateUserSub st.users r.user_id t (SUBSCRIPTION_TIERS t).features
        (r.credits_granted : Int)
    | Package.creditsPkg =>
      updateUserInc st.users r.user_id (r.credits_granted : Int)
  { st with payment_transactions := txs, users := users }

/-- The payment status observed from the provider
(`checkout_status.payment_status == "paid"`). -/
inductive ObservedStatus
  | paid
  | notPaid
deriving DecidableEq, Repr

/-- The reconciliation in `PaymentService.get_checkout_status`
(server.py 555-581): look up the transaction; if the observed status is
"paid" and the record is not already "completed", process the
successful payment; otherwise only report. -/
def get_checkout_status (st : ServerState) (sid : Nat)
    (observed : ObservedStatus) (intent : Option Nat) : ServerState :=
  match findTx st.payment_transactions sid with
  | none => st
  | some r =>
    if observed = ObservedStatus.paid ∧ r.payment_status ≠ PayStatus.completed
    then process_successful_payment st r intent
    else st

/-- The reconciliation in the `stripe_webhook` route (server.py
976-983): on a `checkout.session.completed` event, look up the record
and process it unless already completed. -/
def stripe_webhook (st : ServerState) (sid : Nat) (completedEvent : Bool)
    (intent : Option Nat) : ServerState :=
  if completedEvent then
    match findTx st.payment_transactions sid with
    | none => st
    | some r =>
      if r.payment_status ≠ PayStatus.completed
      then process_successful_payment st r intent
      else st
  else st

/-- One observation of a payment session's completion, via either
reconciliation path. -/
inductive ReconcileTrigger
  | poll (observed : ObservedStatus) (intent : Option Nat)
  | webhook (completedEvent : Bool) (intent : Option Nat)

/-- A trigger that observes status "paid". -/
def PaidTrigger : ReconcileTrigger → Prop
  | ReconcileTrigger.poll o _ => o = ObservedStatus.paid
  | ReconcileTrigger.webhook c _ => c = true

/-- The payment-intent id carried by a trigger. -/
def triggerIntent : ReconcileTrigger → Option Nat
  | ReconcileTrigger.poll _ i => i
  | ReconcileTrigger.webhook _ i => i

/-- Dispatch of one trigger to its reconciliation path. -/
def reconcileStep (st : ServerState) (sid : Nat) :
    ReconcileTrigger → ServerState
  | ReconcileTrigger.poll o i => get_checkout_status st sid o i
  | ReconcileTrigger.webhook c i => stripe_webhook st sid c i

/-- A sequence of completion observations for the same session. -/
def runReconcile (sid : Nat) : ServerState → List ReconcileTrigger → ServerState
  | st, [] => st
  | st, t :: ts => runReconcile sid (reconcileStep st sid t) ts

theorem findTx_completeTx {txs : List PaymentRecord} {sid : Nat}
    {r : PaymentRecord} (intent : Option Nat)
    (h : findTx txs sid = some r) :
    findTx (completeTx txs sid intent) sid
      = some { r with payment_status := PayStatus.completed, payment_intent := intent } := by
  induction txs with
  | nil => simp [findTx] at h
  | cons x rest ih =>
    by_cases hx : x.session_id = sid
    · simp only [findTx, hx, if_pos rfl] at h
      cases h
      simp [completeTx, findTx, hx]
    · simp only [findTx, hx, if_false] at h
      simp [completeTx, findTx, hx, ih h]

theorem findTx_process {st : ServerState} {r : PaymentRecord}
    (intent : Option Nat)
    (h : findTx st.payment_transactions r.session_id = some r) :
    findTx (process_successful_payment st r intent).payment_transactions
        r.session_id
      = some { r with payment_status := PayStatus.completed, payment_intent := intent } := by
  unfold process_successful_payment
  exact findTx_completeTx intent h

/-- A reconciliation trigger for a session whose record is already
completed leaves the state unchanged (the idempotency guard). -/
theorem reconcileStep_completed {st : ServerState} {sid : Nat}
    {r : PaymentRecord}
    (hr : findTx st.payment_transactions sid = some r)
    (hc : r.payment_status = PayStatus.completed)
    (t : ReconcileTrigger) :
    reconcileStep st sid t = st := by
  cases t with
  | poll o i =>
    simp [reconcileStep, get_checkout_status, hr, hc]
  | webhook c i =>
    cases c <;> simp [reconcileStep, stripe_webhook, hr, hc]

/-- A paid trigger for a pending session performs exactly the
successful-payment processing. -/
theorem reconcileStep_pending {st : ServerState} {sid : Nat}
    {r : PaymentRecord}
    (hr : findTx st.payment_transactions sid = some r)
    (hp : r.payment_status = PayStatus.pending)
    {t : ReconcileTrigger} (ht : PaidTrigger t) :
    reconcileStep st sid t = process_successful_payment st r (triggerIntent t) := by
  have hne : r.payment_status ≠ PayStatus.completed := by
    rw [hp]; intro hcon; cases hcon
  cases t with
  | poll o i =>
    cases ht
    simp [reconcileStep, get_checkout_status, hr, hne, triggerIntent]
  | webhook c i =>
    cases ht
    simp [reconcileStep, stripe_webhook, hr, hne, triggerIntent]

theorem runReconcile_completed {sid : Nat} {st : ServerState}
    {r : PaymentRecord}
    (hr : findTx st.payment_transactions sid = some r)
    (hc : r.payment_status = PayStatus.completed)
    (ts : List ReconcileTrigger) :
    runReconcile sid st ts = st := by
  induction ts with
  | nil => rfl
  | cons t rest ih =>
    unfold runReconcile
    rw [reconcileStep_completed hr hc t]
    exact ih

theorem findUser_updateUserInc {users : List UserDoc} {uid : Nat}
    {u : UserDoc} (d : Int) (h : findUser users uid = some u) :
    findUser (updateUserInc users uid d) uid
      = some { u with email_credits := u.email_credits + d } := by
  induction users with
  | nil => simp [findUser] at h
  | cons x rest ih =>
    by_cases hx : x.id = uid
    · simp only [findUser, hx, if_pos rfl] at h
      cases h
      simp [updateUserInc, findUser, hx]
    · simp only [findUser, hx, if_false] at h
      simp [updateUserInc, findUser, hx, ih h]

theorem findUser_updateUserSub {users : List UserDoc} {uid : Nat}
    {u : UserDoc} (t : Tier) (fs : List Str) (d : Int)
    (h : findUser users uid = some u) :
    findUser (updateUserSub users uid t fs d) uid
      = some { u with
          subscription_tier := t
          premium_features := fs
          email_credits := u.email_credits + d } := by
  induction users with
  | nil => simp [findUser] at h
  | cons x rest ih =>
    by_cases hx : x.id = uid
    · simp only [findUser, hx, if_pos rfl] at h
      cases h
      simp [updateUserSub, findUser, hx]
    · simp only [findUser, hx, if_false] at h
      simp [updateUserSub, findUser, hx, ih h]

/-- After `_process_successful_payment`, the paying user's balance has
grown by exactly `credits_granted`, for either package kind. -/
theorem balance_after_process {st : ServerState} {r : PaymentRecord}
    {u : UserDoc} (intent : Option Nat)
    (hu : findUser st.users r.user_id = some u) :
    (findUser (process_successful_payment st r intent).users r.user_id).map
        UserDoc.email_credits
      = some (u.email_credits + r.credits_granted) := by
  unfold process_successful_payment
  cases hpk : r.package_type with
  | subscription t =>
    simp [findUser_updateUserSub t (SUBSCRIPTION_TIERS t).features
      (r.credits_granted : Int) hu]
  | creditsPkg =>
    simp [findUser_updateUserInc (r.credits_granted : Int) hu]

/-- C2: for a pending payment session observed as paid `N ≥ 1` times
through any mix of status polls and webhook deliveries, the whole run
equals a single application (so the session transitions to Completed at
most once), and the final balance is the initial balance plus
`credits_granted` — not `N` times the grant. -/
theorem reconcile_applies_grant_exactly_once
    (st : ServerState) (sid : Nat) (r : PaymentRecord) (u : UserDoc)
    (t : ReconcileTrigger) (ts : List ReconcileTrigger)
    (hr : findTx st.payment_transactions sid = some r)
    (hsid : r.session_id = sid)
    (hp : r.payment_status = PayStatus.pending)
    (hu : findUser st.users r.user_id = some u)
    (hts : ∀ x ∈ t :: ts, PaidTrigger x) :
    runReconcile sid st (t :: ts) = reconcileStep st sid t ∧
    (findUser (runReconcile sid st (t :: ts)).users r.user_id).map
        UserDoc.email_credits
      = some (u.email_credits + r.credits_granted) ∧
    findTx (runReconcile sid st (t :: ts)).payment_transactions sid
      = some { r with
          payment_status := PayStatus.completed
          payment_intent := triggerIntent t } := by
  subst hsid
  have hstep : reconcileStep st r.session_id t
      = process_successful_payment st r (triggerIntent t) :=
    reconcileStep_pending hr hp (hts t (List.mem_cons_self t ts))
  have hfind1 : findTx (reconcileStep st r.session_id t).payment_transactions
      r.session_id
      = some { r with
          payment_status := PayStatus.completed
          payment_intent := triggerIntent t } := by
    rw [hstep]
    exact findTx_process (triggerIntent t) hr
  have hrun : runReconcile r.session_id st (t :: ts)
      = reconcileStep st r.session_id t := by
    unfold runReconcile
    exact runReconcile_completed hfind1 rfl ts
  refine ⟨hrun, ?_, ?_⟩
  · rw [hrun, hstep]
    exact balance_after_process (triggerIntent t) hu
  · rw [hrun]
    exact hfind1

/-- Witness for C2: a Basic-tier user with 3 credits and a pending
credit-package session granting 25 credits, observed as paid three times
(poll, webhook, poll): the final balance is 28 and the run equals a
single step. -/
theorem reconcile_applies_grant_exactly_once_witness :
    runReconcile 5
        ⟨[⟨1, Tier.basic, 3, []⟩], [],
          [⟨5, 1, PayStatus.pending, Package.creditsPkg, 25, none⟩],
          ⟨none, false, [], 0⟩, 0⟩
        [ReconcileTrigger.poll ObservedStatus.paid (some 77),
          ReconcileTrigger.webhook true none,
          ReconcileTrigger.poll ObservedStatus.paid none]
      = reconcileStep
          ⟨[⟨1, Tier.basic, 3, []⟩], [],
            [⟨5, 1, PayStatus.pending, Package.creditsPkg, 25, none⟩],
            ⟨none, false, [], 0⟩, 0⟩ 5
          (ReconcileTrigger.poll ObservedStatus.paid (some 77)) ∧
    (findUser (runReconcile 5
        ⟨[⟨1, Tier.basic, 3, []⟩], [],
          [⟨5, 1, PayStatus.pending, Package.creditsPkg, 25, none⟩],
          ⟨none, false, [], 0⟩, 0⟩
        [ReconcileTrigger.poll ObservedStatus.paid (some 77),
          ReconcileTrigger.webhook true none,
          ReconcileTrigger.poll ObservedStatus.paid none]).users 1).map
        UserDoc.email_credits = some 28 := by
  have h := reconcile_applies_grant_exactly_once
    ⟨[⟨1, Tier.basic, 3, []⟩], [],
      [⟨5, 1, PayStatus.pending, Package.creditsPkg, 25, none⟩],
      ⟨none, false, [], 0⟩, 0⟩ 5
    ⟨5, 1, PayStatus.pending, Package.creditsPkg, 25, none⟩
    ⟨1, Tier.basic, 3, []⟩
    (ReconcileTrigger.poll ObservedStatus.paid (some 77))
    [ReconcileTrigger.webhook true none,
      ReconcileTrigger.poll ObservedStatus.paid none]
    rfl rfl rfl rfl
    (by
      intro x hx
      rcases hx with _ | ⟨_, hx⟩
      · exact rfl
      · rcases hx with _ | ⟨_, hx⟩
        · exact rfl
        · rcases hx with _ | ⟨_, hx⟩
          · exact rfl
          · cases hx)
  exact ⟨h.1, h.2.1⟩

/-- `get_checkout_status` on a session already completed does not change
the state. -/
theorem get_checkout_status_completed {st : ServerState} {sid : Nat}
    {r : PaymentRecord}
    (hr : findTx st.payment_transactions sid = some r)
    (hc : r.payment_status = PayStatus.completed)
    (o : ObservedStatus) (i : Option Nat) :
    get_checkout_status st sid o i = st := by
  simp [get_checkout_status, hr, hc]

theorem findTx_append_fresh {txs : List PaymentRecord} {sid : Nat}
    {x : PaymentRecord} (h : findTx txs sid = none) (hx : x.session_id = sid) :
    findTx (txs ++ [x]) sid = some x := by
  induction txs with
  | nil => simp [findTx, hx]
  | cons y rest ih =>
    by_cases hy : y.session_id = sid
    · simp [findTx, hy] at h
    · simp only [findTx, hy, if_false] at h
      simp [findTx, hy, ih h]

/-- C9: a subscription-package session created for tier `tier` and then
first reconciled as paid sets the user's tier to `tier`, recomputes the
feature set from the tier catalog, and adds the tier's monthly credit
allotment — together, and a second reconciliation of the same session
changes nothing. -/
theorem subscription_payment_applied_once
    (st : ServerState) (tier : Tier) (uid sid : Nat) (u : UserDoc)
    (i i' : Option Nat)
    (hfresh : findTx st.payment_transactions sid = none)
    (hu : findUser st.users uid = some u) :
    findUser (get_checkout_status
        (create_subscription_checkout st tier uid sid) sid
        ObservedStatus.paid i).users uid
      = some { u with
          subscription_tier := tier
          premium_features := (SUBSCRIPTION_TIERS tier).features
          email_credits := u.email_credits
            + (SUBSCRIPTION_TIERS tier).credits_per_month } ∧
    get_checkout_status (get_checkout_status
        (create_subscription_checkout st tier uid sid) sid
        ObservedStatus.paid i) sid ObservedStatus.paid i'
      = get_checkout_status (create_subscription_checkout st tier uid sid) sid
          ObservedStatus.paid i := by
  have hr : findTx (create_subscription_checkout st tier uid sid).payment_transactions sid
      = some ⟨sid, uid, PayStatus.pending, Package.subscription tier,
          (SUBSCRIPTION_TIERS tier).credits_per_month, none⟩ := by
    unfold create_subscription_checkout
    exact findTx_append_fresh hfresh rfl
  have hstep : get_checkout_status (create_subscription_checkout st tier uid sid)
      sid ObservedStatus.paid i
      = process_successful_payment (create_subscription_checkout st tier uid sid)
          ⟨sid, uid, PayStatus.pending, Package.subscription tier,
            (SUBSCRIPTION_TIERS tier).credits_per_month, none⟩ i := by
    simp [get_checkout_status, hr]
  constructor
  · rw [hstep]
    unfold process_successful_payment
    simp only
    exact findUser_updateUserSub tier (SUBSCRIPTION_TIERS tier).features _ hu
  · have hdone : findTx (get_checkout_status
        (create_subscription_checkout st tier uid sid) sid
        ObservedStatus.paid i).payment_transactions sid
        = some ⟨sid, uid, PayStatus.completed, Package.subscription tier,
            (SUBSCRIPTION_TIERS tier).credits_per_month, i⟩ := by
      rw [hstep]
      exact findTx_process i hr
    exact get_checkout_status_completed hdone rfl ObservedStatus.paid i'

/-- Witness for C9: user 1 (Basic, 3 credits) buys a Pro subscription in
session 9; after a first paid reconciliation the user is Pro with the
catalog's Pro features and 103 credits, and a second reconciliation is a
no-op. -/
theorem subscription_payment_applied_once_witness :
    findUser (get_checkout_status
        (create_subscription_checkout
          ⟨[⟨1, Tier.basic, 3, []⟩], [], [], ⟨none, false, [], 0⟩, 0⟩
          Tier.pro 1 9) 9 ObservedStatus.paid (some 42)).users 1
      = some ⟨1, Tier.pro, 103, (SUBSCRIPTION_TIERS Tier.pro).features⟩ ∧
    get_checkout_status (get_checkout_status
        (create_subscription_checkout
          ⟨[⟨1, Tier.basic, 3, []⟩], [], [], ⟨none, false, [], 0⟩, 0⟩
          Tier.pro 1 9) 9 ObservedStatus.paid (some 42)) 9
        ObservedStatus.paid none
      = get_checkout_status
          (create_subscription_checkout
            ⟨[⟨1, Tier.basic, 3, []⟩], [], [], ⟨none, false, [], 0⟩, 0⟩
            Tier.pro 1 9) 9 ObservedStatus.paid (some 42) := by
  have h := subscription_payment_applied_once
    ⟨[⟨1, Tier.basic, 3, []⟩], [], [], ⟨none, false, [], 0⟩, 0⟩
    Tier.pro 1 9 ⟨1, Tier.basic, 3, []⟩ (some 42) none rfl rfl
  exact ⟨h.1, h.2⟩

/-! ### Send-pipeline claims -/

/-- C8: the credit authorization check precedes any storage write: a
send by an account with balance zero fails with `InsufficientCredit`
and the state — in particular the object store — is completely
unchanged, so no `put` (neither attachments nor body) was performed. -/
theorem credit_check_before_any_storage_write
    (st : ServerState) (uid : Nat) (req : SendRequest) (uploads : List Upload)
    (u : UserDoc) (hu : findUser st.users uid = some u)
    (hz : u.email_credits = 0) :
    send_email_advanced st uid req uploads
      = (Except.error ApiError.insufficientCredit, st) ∧
    (send_email_advanced st uid req uploads).2.ipfs = st.ipfs := by
  have h : send_email_advanced st uid req uploads
      = (Except.error ApiError.insufficientCredit, st) := by
    unfold send_email_advanced
    rw [hu]
    simp [hz]
  exact ⟨h, by rw [h]⟩

/-- Witness for C8: a zero-balance Basic user sending an email with one
upload is rejected with `InsufficientCredit` and the state is
untouched. -/
theorem credit_check_before_any_storage_write_witness :
    send_email_advanced
        ⟨[⟨1, Tier.basic, 0, []⟩], [], [], ⟨some (), false, [], 0⟩, 0⟩ 1
        ⟨litStr "a@x", [litStr "b@x"], litStr "s", litStr "b", some []⟩
        [⟨litStr "f.txt", [104, 105]⟩]
      = (Except.error ApiError.insufficientCredit,
          ⟨[⟨1, Tier.basic, 0, []⟩], [], [], ⟨some (), false, [], 0⟩, 0⟩) :=
  (credit_check_before_any_storage_write
    ⟨[⟨1, Tier.basic, 0, []⟩], [], [], ⟨some (), false, [], 0⟩, 0⟩ 1
    ⟨litStr "a@x", [litStr "b@x"], litStr "s", litStr "b", some []⟩
    [⟨litStr "f.txt", [104, 105]⟩] ⟨1, Tier.basic, 0, []⟩ rfl rfl).1

/-- C3 (code violating the claim): with the storage backend unavailable
(`client = None`, so the underlying put fails and the service falls back
to a fabricated handle), a send by a user with one credit does NOT
abort: it reports success, creates an `EmailRecord`, and debits the
credit down to zero — the concrete evaluation of the pipeline at the
failing input. -/
theorem send_completes_despite_storage_failure :
    (send_email_advanced
        ⟨[⟨1, Tier.basic, 1, []⟩], [], [], ⟨none, false, [], 0⟩, 0⟩ 1
        ⟨litStr "alice@example.com", [litStr "bob@example.com"],
          litStr "Hello", litStr "Body", some []⟩ []).1.isOk = true ∧
    (send_email_advanced
        ⟨[⟨1, Tier.basic, 1, []⟩], [], [], ⟨none, false, [], 0⟩, 0⟩ 1
        ⟨litStr "alice@example.com", [litStr "bob@example.com"],
          litStr "Hello", litStr "Body", some []⟩ []).2.email_records.length = 1 ∧
    findUser (send_email_advanced
        ⟨[⟨1, Tier.basic, 1, []⟩], [], [], ⟨none, false, [], 0⟩, 0⟩ 1
        ⟨litStr "alice@example.com", [litStr "bob@example.com"],
          litStr "Hello", litStr "Body", some []⟩ []).2.users 1
      = some ⟨1, Tier.basic, 0, []⟩ := by
  refine ⟨?_, ?_, ?_⟩ <;> decide

/-! ### Email-record retrieval (`get_user_emails`, server.py 806-824,
and `retrieve_email_from_ipfs`, 826-865) -/

/-- The descending-timestamp order of
`.sort("timestamp", -1)`. -/
def tsDesc (a b : EmailRecordDoc) : Prop := b.timestamp ≤ a.timestamp

instance : DecidableRel tsDesc := fun a b => Nat.decLe b.timestamp a.timestamp

/-- `get_user_emails` (server.py 806-824):
`db.email_records.find({"user_id": uid}).sort("timestamp", -1).to_list(100)`. -/
def get_user_emails (st : ServerState) (uid : Nat) : List EmailRecordDoc :=
  (((st.email_records.filter (fun r => r.user_id == uid)).insertionSort
    tsDesc).take 100)

/-- `retrieve_email_from_ipfs` (server.py 826-865): find the record by
id AND requesting user's id; a missing match — nonexistent id or a
record owned by someone else — raises the same
HTTP 404 "Email not found"; then fetch and decrypt from IPFS. -/
def retrieve_email_from_ipfs (st : ServerState) (uid email_id : Nat) :
    Except ApiError (Nat × Str) :=
  match st.email_records.find? (fun r => r.id == email_id && r.user_id == uid) with
  | none => Except.error ApiError.emailNotFound
  | some r =>
    match r.ipfs_hash with
    | none => Except.error ApiError.notStoredInIpfs
    | some h =>
      match retrieve_encrypted_content st.ipfs h with
      | Except.ok content => Except.ok (email_id, content)
      | Except.error e => Except.error e

/-- C10: retrieval is scoped to the owning account: content is returned
only when a stored record with that id belongs to the requesting user;
when every record with the requested id is owned by another account the
result is the `emailNotFound` error — the very value produced for a
nonexistent record, hence indistinguishable from it; and
`get_user_emails` lists only records owned by the requester. -/
theorem email_access_scoped_to_owner (st : ServerState) (uid email_id : Nat) :
    (∀ resp, retrieve_email_from_ipfs st uid email_id = Except.ok resp →
      ∃ r ∈ st.email_records, r.id = email_id ∧ r.user_id = uid) ∧
    ((∀ r ∈ st.email_records, r.id = email_id → r.user_id ≠ uid) →
      retrieve_email_from_ipfs st uid email_id
        = Except.error ApiError.emailNotFound) ∧
    ((∀ r ∈ st.email_records, r.id ≠ email_id) →
      retrieve_email_from_ipfs st uid email_id
        = Except.error ApiError.emailNotFound) ∧
    (∀ r ∈ get_user_emails st uid, r.user_id = uid) := by
  refine ⟨?_, ?_, ?_, ?_⟩
  · intro resp hok
    unfold retrieve_email_from_ipfs at hok
    cases hfind : st.email_records.find?
        (fun r => r.id == email_id && r.user_id == uid) with
    | none => rw [hfind] at hok; cases hok
    | some r =>
      have hmem := List.mem_of_find?_eq_some hfind
      have hprop := List.find?_some hfind
      simp only [Bool.and_eq_true, beq_iff_eq] at hprop
      exact ⟨r, hmem, hprop.1, hprop.2⟩
  · intro hnone
    have hfind : st.email_records.find?
        (fun r => r.id == email_id && r.user_id == uid) = none := by
      refine List.find?_eq_none.mpr ?_
      intro r hr
      simp only [Bool.and_eq_true, beq_iff_eq, not_and]
      intro hid
      exact hnone r hr hid
    unfold retrieve_email_from_ipfs
    rw [hfind]
  · intro hnone
    have hfind : st.email_records.find?
        (fun r => r.id == email_id && r.user_id == uid) = none := by
      refine List.find?_eq_none.mpr ?_
      intro r hr
      simp only [Bool.and_eq_true, beq_iff_eq, not_and]
      intro hid
      exact absurd hid (hnone r hr)
    unfold retrieve_email_from_ipfs
    rw [hfind]
  · intro r hr
    unfold get_user_emails at hr
    have hr2 := List.take_subset 100 _ hr
    rw [List.mem_insertionSort] at hr2
    have := List.mem_filter.mp hr2
    simpa using this.2

/-- Witness for C10: a store holding exactly one record (id 9, owned by
user 1): a request by user 7 for record 9 gets the same
`emailNotFound` as a request for the nonexistent record 8, while the
owner listing for user 7 contains nothing of another user's. -/
theorem email_access_scoped_to_owner_witness :
    retrieve_email_from_ipfs
        ⟨[], [⟨9, 1, 0, some 4, 0, 123456, 0, litStr "standard", false, 0⟩],
          [], ⟨some (), false, [], 0⟩, 0⟩ 7 9
      = Except.error ApiError.emailNotFound ∧
    retrieve_email_from_ipfs
        ⟨[], [⟨9, 1, 0, some 4, 0, 123456, 0, litStr "standard", false, 0⟩],
          [], ⟨some (), false, [], 0⟩, 0⟩ 7 8
      = Except.error ApiError.emailNotFound :=
  ⟨(email_access_scoped_to_owner
      ⟨[], [⟨9, 1, 0, some 4, 0, 123456, 0, litStr "standard", false, 0⟩],
        [], ⟨some (), false, [], 0⟩, 0⟩ 7 9).2.1 (by decide),
    (email_access_scoped_to_owner
      ⟨[], [⟨9, 1, 0, some 4, 0, 123456, 0, litStr "standard", false, 0⟩],
        [], ⟨some (), false, [], 0⟩, 0⟩ 7 8).2.2.1 (by decide)⟩

end Web3Email
